import Mathlib

/-!
Verification of the stock-logger program (src/stock_logger.py, src/main.py).

Modelling conventions of the shallow embedding:
* Times are minutes since an arbitrary epoch, as `Int`.  Moscow local time
  is UTC + 3 hours = UTC + 180 minutes; `datetime.astimezone(timezone.utc)`
  on an MSK-aware datetime subtracts 180, and the reverse conversion adds 180.
* Prices are exact rationals `ℚ` (the Python floats in the claims, such as
  250.5, are exactly representable, so the model is faithful there).
* Traded volumes are `Nat` (lot counts).
* Python `dict` is an association list with unique keys: `dictInsert`
  replaces the value at the first occurrence of the key or appends a new
  binding at the end, and `dictGetD` is `dict.get(k, default)`.
* A fallible collaborator call is an oracle value/function returning
  `Except String α`; a Python `try/except Exception` block is a `match` on
  that result.  Mutations performed before an exception persist, so the
  fallible body of `on_new_bar` returns the partially-updated state in its
  error case as well.
-/

namespace StockLog

/-- A minute candle as consumed by `_get_daily_volume` (src/stock_logger.py
lines 86-91): its UTC time in minutes and its traded volume. -/
structure Candle where
  time : Int
  volume : Nat
deriving DecidableEq, Repr

/-- A minute label, the model of the `"HH:MM"` string produced by
`local_time.strftime("%H:%M")` (line 90): the hour and minute components. -/
abbrev Label := Int × Int

/-- The volumes-by-minute dictionary (`volumes_by_minute`, line 76):
an association list from minute label to accumulated volume. -/
abbrev VolMap := List (Label × Nat)

/-- `m.get(k, d)` on a Python dict: the value at the first occurrence of the
key, or the default. -/
def dictGetD : VolMap → Label → Nat → Nat
  | [], _, d => d
  | (k', v') :: rest, k, d => if k' = k then v' else dictGetD rest k d

/-- `m[k] = v` on a Python dict: replace the value at the first occurrence
of the key, or append a fresh binding. -/
def dictInsert : VolMap → Label → Nat → VolMap
  | [], k, v => [(k, v)]
  | (k', v') :: rest, k, v =>
      if k' = k then (k, v) :: rest else (k', v') :: dictInsert rest k v

/-- Lines 88-90: convert the candle's UTC time to MSK (UTC+3) and take the
`"%H:%M"` label, i.e. the hour and minute of its local time of day. -/
def minuteLabel (c : Candle) : Label :=
  let localTime := c.time + 180
  let minuteOfDay := localTime % 1440
  (minuteOfDay / 60, minuteOfDay % 60)

/-- Line 91: `volumes_by_minute[label] = volumes_by_minute.get(label, 0) + candle.volume`. -/
def bucketStep (m : VolMap) (c : Candle) : VolMap :=
  dictInsert m (minuteLabel c) (dictGetD m (minuteLabel c) 0 + c.volume)

/-- The `for candle in candles` loop of lines 86-91, starting from the empty
dict of line 76. -/
def bucketCandles (cs : List Candle) : VolMap :=
  cs.foldl bucketStep []

/-- `sum(daily_volume.values())` (line 128): the total of the bucket values. -/
def totalVolume (m : VolMap) : Nat :=
  (m.map Prod.snd).sum

/-- Line 67: `target_dt.replace(hour=6, minute=50, second=0, microsecond=0)` —
06:50 MSK on the same calendar day as the (MSK-local) target time. -/
def windowStartLocal (target : Int) : Int :=
  target - target % 1440 + (6 * 60 + 50)

/-- The candle-fetch collaborator (`client.get_all_candles`, lines 80-85):
given the figi and a UTC range, it returns minute candles or raises. -/
abbrev Fetch := String → Int → Int → Except String (List Candle)

/-- `StockLogger._get_daily_volume` (lines 55-97).  Returns the
volumes-by-minute dict together with a flag recording whether an error was
logged (`logging.error` at line 62 or line 96).  A missing figi or a raising
fetch yields the empty dict. -/
def get_daily_volume (figi : Option String) (fetch : Fetch) (target : Int) :
    VolMap × Bool :=
  match figi with
  | none => ([], true)
  | some f =>
      let startUtc := windowStartLocal target - 180
      let endUtc := target - 180
      match fetch f startUtc endUtc with
      | .ok cs => (bucketCandles cs, false)
      | .error _ => ([], true)

/-- The mutable state of a constructed `StockLogger` object
(src/stock_logger.py lines 10-19 and 34-37).  `last_update` and
`last_price` are unconditionally set by the constructor before any bar
event can be processed, so they are total fields here. -/
structure LoggerState where
  symbol : String
  figi : Option String
  issued_shares : Option Nat
  last_price : ℚ
  last_update : Int
  times : List Int
  prices : List ℚ
deriving DecidableEq, Repr

/-- `StockLogger._refresh_stock_data` (lines 40-53).  `now` is
`datetime.now(tz_msk)` in MSK minutes; `svc` is the outcome of the
reference-service round trip inside the `try` block (the `issue_size` found
for the symbol, or the exception it raised — `StopIteration` for an
unresolvable ticker or any upstream error, both caught at line 52).
Returns the updated state and whether the reference service was called. -/
def refresh_stock_data (now : Int) (svc : Except String Nat) (s : LoggerState) :
    LoggerState × Bool :=
  if now - s.last_update < 23 * 60 then (s, false)
  else
    match svc with
    | .ok size => ({ s with issued_shares := some size, last_update := now }, true)
    | .error _ => (s, true)

/-- The bar-event payload handed to `on_new_bar` (`response`, lines 105-109).
A `none` field models the corresponding key being absent or unusable, which
makes the dict access (or the numeric formatting of `close`) raise. -/
structure BarPayload where
  guid : Option String
  time : Option Int
  close : Option ℚ
deriving DecidableEq, Repr

/-- The observable per-event output of `on_new_bar`: the info log line of
lines 112-115 (exchange, bar time, close price), the printed capitalization
(line 124, absent when skipped), the printed daily volume total (line 128,
absent when the event died earlier), and whether the handler logged an
error at line 143. -/
structure Output where
  logged : Option (String × Int × ℚ)
  marketCap : Option ℚ
  reportedVolume : Option Nat
  errorLogged : Bool
deriving DecidableEq, Repr

/-- The collaborators touched during one `on_new_bar` call: the outcome of
the reference-service refresh, the `ap_provider.subscriptions` lookup
(guid to exchange, line 105), the candle fetcher, and whether the
matplotlib rendering of lines 131-140 completes without raising. -/
structure BarOracles where
  refreshSvc : Except String Nat
  subs : String → Option String
  fetch : Fetch
  renderOk : Bool

def emptyOutput : Output :=
  { logged := none, marketCap := none, reportedVolume := none, errorLogged := false }

/-- The body of the `try` block of `on_new_bar` (lines 101-140), step by
step in source order.  An `.error` result models an exception reaching the
handler of line 142 and carries the state and output as they stand at the
raise point, since Python mutations performed before an exception persist.
The raise points are: the `response['guid']` access, the
`subscriptions[guid]` lookup, the `response['data']['time']` access, the
`response['data']['close']` access / its `:.2f` formatting, and the
rendering calls (everything else is infallible or catches internally). -/
def onBarTry (now : Int) (o : BarOracles) (s : LoggerState) (resp : BarPayload) :
    Except (LoggerState × Output) (LoggerState × Output) :=
  let s1 := (refresh_stock_data now o.refreshSvc s).1
  match resp.guid with
  | none => .error (s1, emptyOutput)
  | some g =>
  match o.subs g with
  | none => .error (s1, emptyOutput)
  | some exch =>
  match resp.time with
  | none => .error (s1, emptyOutput)
  | some t =>
  match resp.close with
  | none => .error (s1, emptyOutput)
  | some close =>
  let dt := t + 180
  let out1 := { emptyOutput with logged := some (exch, dt, close) }
  let s2 := { s1 with times := s1.times ++ [dt] }
  let s3 := { s2 with prices := s2.prices ++ [close] }
  let cap : Option ℚ :=
    match s3.issued_shares with
    | some n => if n = 0 then none else some ((n : ℚ) * close)
    | none => none
  let out2 := { out1 with marketCap := cap }
  let vol := totalVolume (get_daily_volume s3.figi o.fetch dt).1
  let out3 := { out2 with reportedVolume := some vol }
  if o.renderOk then .ok (s3, out3) else .error (s3, out3)

/-- `StockLogger.on_new_bar` (lines 99-143): run the body; any exception is
caught at line 142, logged at line 143, and the handler returns normally. -/
def on_new_bar (now : Int) (o : BarOracles) (s : LoggerState) (resp : BarPayload) :
    LoggerState × Output :=
  match onBarTry now o s resp with
  | .ok r => r
  | .error (s', out) => (s', { out with errorLogged := true })

/-- A share record of the reference service
(`client.instruments.shares().instruments`, lines 24-28). -/
structure Share where
  ticker : String
  figi : String
  issue_size : Nat
deriving DecidableEq, Repr

/-- `StockLogger._initialize_stock_data` (lines 21-38): find the first share
whose ticker matches the (upper-cased) symbol — raising `ValueError` when
there is none — then fetch the last price (`lastPrice` is that call's
outcome), and only then return the fields to be stored: figi, issue size,
last price and the refresh timestamp. -/
def init_stock_data (symbol : String) (shares : List Share)
    (lastPrice : Except String ℚ) (now : Int) :
    Except String (String × Nat × ℚ × Int) :=
  match shares.find? (fun sh => sh.ticker == symbol) with
  | none => .error symbol
  | some sh =>
      match lastPrice with
      | .error e => .error e
      | .ok p => .ok (sh.figi, sh.issue_size, p, now)

/-- The `StockLogger` constructor (lines 10-19): upper-case the symbol and
run the startup lookup; on success the object exists with figi and issued
shares set, on failure the exception propagates and no object exists. -/
def mkLogger (rawSymbol : String) (shares : List Share)
    (lastPrice : Except String ℚ) (now : Int) : Except String LoggerState :=
  let symbol := rawSymbol.toUpper
  match init_stock_data symbol shares lastPrice now with
  | .error e => .error e
  | .ok (figi, size, p, t) =>
      .ok { symbol := symbol, figi := some figi, issued_shares := some size,
            last_price := p, last_update := t, times := [], prices := [] }

/-- The startup section of `main` (src/main.py lines 30-35): construct the
logger; on any exception log it and `sys.exit(1)`.  `.inl code` is a process
exit, `.inr s` is a running monitor. -/
def mainStartup (rawSymbol : String) (shares : List Share)
    (lastPrice : Except String ℚ) (now : Int) : Sum Nat LoggerState :=
  match mkLogger rawSymbol shares lastPrice now with
  | .error _ => .inl 1
  | .ok s => .inr s

/-- One delivered bar event: the wall-clock at delivery, the collaborator
behaviours during its processing, and the payload. -/
structure BarEventInput where
  now : Int
  oracles : BarOracles
  payload : BarPayload

/-- Delivering a sequence of bar events to the handler, one at a time. -/
def processAll (s : LoggerState) (events : List BarEventInput) : LoggerState :=
  events.foldl (fun st e => (on_new_bar e.now e.oracles st e.payload).1) s

/-- A well-formed event: its payload carries a guid known to the provider's
subscription table, a bar time, and a numeric close price, so none of the
payload raise points of `on_new_bar` fires. -/
def WellFormedEvent (e : BarEventInput) : Prop :=
  (∃ g ex, e.payload.guid = some g ∧ e.oracles.subs g = some ex) ∧
    (∃ t, e.payload.time = some t) ∧ (∃ c, e.payload.close = some c)

/-- The claims' hypothesis that bar timestamps strictly increase along the
delivered sequence. -/
def StrictlyIncreasing (events : List BarEventInput) : Prop :=
  List.Chain' (fun a b => ∀ ta tb, a.payload.time = some ta →
    b.payload.time = some tb → ta < tb) events

/-- The summed volume of the candles of `cs` carrying the label `lab`. -/
def labelVolume (lab : Label) (cs : List Candle) : Nat :=
  ((cs.filter fun c => minuteLabel c == lab).map Candle.volume).sum

theorem totalVolume_dictInsert (m : VolMap) (k : Label) (v : Nat) :
    totalVolume (dictInsert m k (dictGetD m k 0 + v)) = totalVolume m + v := by
  induction m with
  | nil => simp [dictInsert, dictGetD, totalVolume]
  | cons hd tl ih =>
      obtain ⟨k', v'⟩ := hd
      by_cases h : k' = k
      · subst h
        simp [dictInsert, dictGetD, totalVolume]
        omega
      · simp only [dictInsert, dictGetD, if_neg h, totalVolume, List.map_cons,
          List.sum_cons] at ih ⊢
        omega

theorem totalVolume_bucketStep (m : VolMap) (c : Candle) :
    totalVolume (bucketStep m c) = totalVolume m + c.volume :=
  totalVolume_dictInsert m (minuteLabel c) c.volume

theorem totalVolume_foldl (cs : List Candle) (m : VolMap) :
    totalVolume (cs.foldl bucketStep m) =
      totalVolume m + (cs.map Candle.volume).sum := by
  induction cs generalizing m with
  | nil => simp
  | cons c cs ih =>
      rw [List.foldl_cons, ih, totalVolume_bucketStep]
      simp
      omega

theorem totalVolume_bucketCandles (cs : List Candle) :
    totalVolume (bucketCandles cs) = (cs.map Candle.volume).sum := by
  rw [bucketCandles, totalVolume_foldl]
  simp [totalVolume]

theorem dictGetD_dictInsert (m : VolMap) (k lab : Label) (v : Nat) :
    dictGetD (dictInsert m k v) lab 0 =
      if k = lab then v else dictGetD m lab 0 := by
  induction m with
  | nil => simp [dictInsert, dictGetD]
  | cons hd tl ih =>
      obtain ⟨k', v'⟩ := hd
      by_cases h : k' = k
      · subst h
        simp only [dictInsert, dictGetD, if_pos rfl]
        split_ifs <;> rfl
      · by_cases h2 : k' = lab
        · subst h2
          have hk : ¬ k = k' := fun he => h he.symm
          simp [dictInsert, dictGetD, if_neg h, if_neg hk]
        · simp [dictInsert, dictGetD, if_neg h, if_neg h2, ih]

theorem dictGetD_foldl (cs : List Candle) (m : VolMap) (lab : Label) :
    dictGetD (cs.foldl bucketStep m) lab 0 =
      dictGetD m lab 0 + labelVolume lab cs := by
  induction cs generalizing m with
  | nil => simp [labelVolume]
  | cons c cs ih =>
      rw [List.foldl_cons, ih]
      unfold bucketStep
      rw [dictGetD_dictInsert]
      by_cases h : minuteLabel c = lab
      · rw [if_pos h, h]
        simp [labelVolume, List.filter_cons, h]
        omega
      · rw [if_neg h]
        simp [labelVolume, List.filter_cons, h]

theorem dictGetD_bucketCandles (cs : List Candle) (lab : Label) :
    dictGetD (bucketCandles cs) lab 0 = labelVolume lab cs := by
  rw [bucketCandles, dictGetD_foldl]
  simp [dictGetD]

theorem refresh_preserves (now : Int) (svc : Except String Nat) (s : LoggerState) :
    (refresh_stock_data now svc s).1.figi = s.figi ∧
    (refresh_stock_data now svc s).1.times = s.times ∧
    (refresh_stock_data now svc s).1.prices = s.prices := by
  unfold refresh_stock_data
  split
  · exact ⟨rfl, rfl, rfl⟩
  · cases svc <;> exact ⟨rfl, rfl, rfl⟩

/-- A fetcher that answers a non-empty candle list exactly when it is handed
an inverted range (end before start), used to observe that
`_get_daily_volume` passes such ranges downstream. -/
def invFetch : Fetch := fun _ a b =>
  if b < a then .ok [{ time := -50, volume := 7 }] else .ok []

/-- Claim C2 as stated is false: at the MSK-local target time 300
(05:00, before 06:50) the window start 06:50 lies after the target, yet
`_get_daily_volume` invokes the candle fetcher on that inverted range and
returns its (non-empty) answer — no explicit empty-result policy is
applied. -/
theorem volume_inverted_window_cex :
    windowStartLocal 300 > 300 ∧
    totalVolume (get_daily_volume (some ("F")) invFetch 300).1 = 7 := by
  constructor
  · decide
  · rfl

/-- Claim C2 (amended): for a target time of day before 06:50 the computed
window is inverted (start after end) and `_get_daily_volume` passes it to
the candle fetcher unchanged; there is no empty-result pre-check — the
result is whatever the fetcher returns, bucketed, and only a raising fetch
yields the empty map (with the error logged). -/
theorem inverted_window_passed (target : Int) (f : String) (fetch : Fetch)
    (msg : String) (h : target % 1440 < 6 * 60 + 50) :
    target - 180 < windowStartLocal target - 180 ∧
    (fetch f (windowStartLocal target - 180) (target - 180) = .error msg →
      get_daily_volume (some f) fetch target = ([], true)) ∧
    ∀ cs, fetch f (windowStartLocal target - 180) (target - 180) = .ok cs →
      get_daily_volume (some f) fetch target = (bucketCandles cs, false) := by
  refine ⟨?_, ?_, ?_⟩
  · unfold windowStartLocal
    omega
  · intro hf
    simp [get_daily_volume, hf]
  · intro cs hf
    simp [get_daily_volume, hf]

theorem inverted_window_passed_witness :
    (300 : Int) - 180 < windowStartLocal 300 - 180 :=
  (inverted_window_passed 300 ("F") invFetch ("e") (by decide)).1

/-- Claim C3: the total daily volume computed by `_get_daily_volume` — the
sum of the per-minute bucket values — is unchanged by any permutation of
the fetched candle sequence, and the bucket at each minute label holds the
summed volume of all candles carrying that label. -/
theorem daily_volume_order_independent (f : String) (t : Int)
    (l l' : List Candle) (hp : l.Perm l') :
    totalVolume (get_daily_volume (some f) (fun _ _ _ => .ok l) t).1 =
      totalVolume (get_daily_volume (some f) (fun _ _ _ => .ok l') t).1 ∧
    totalVolume (bucketCandles l) = totalVolume (bucketCandles l') ∧
    ∀ lab, dictGetD (bucketCandles l) lab 0 = labelVolume lab l := by
  have hsum : totalVolume (bucketCandles l) = totalVolume (bucketCandles l') := by
    rw [totalVolume_bucketCandles, totalVolume_bucketCandles]
    exact (hp.map Candle.volume).sum_eq
  refine ⟨?_, hsum, fun lab => dictGetD_bucketCandles l lab⟩
  simpa [get_daily_volume] using hsum

/-- Concrete candle lists for the order-independence witness: one is a
permutation of the other and they share a duplicated minute label. -/
def candlesA : List Candle :=
  [{ time := 0, volume := 3 }, { time := 1, volume := 4 }, { time := 0, volume := 5 }]

def candlesB : List Candle :=
  [{ time := 0, volume := 5 }, { time := 0, volume := 3 }, { time := 1, volume := 4 }]

theorem daily_volume_order_independent_witness :
    totalVolume (get_daily_volume (some ("F")) (fun _ _ _ => .ok candlesA) 0).1 =
      totalVolume (get_daily_volume (some ("F")) (fun _ _ _ => .ok candlesB) 0).1 :=
  (daily_volume_order_independent ("F") 0 candlesA candlesB (by decide)).1

/-- Claim C1: for every bar-event payload (well-formed or not) and every
behaviour of the collaborators (including raising ones), `on_new_bar`
returns normally — either the body ran to completion and its result is
returned, or the body raised and the handler returns the state as mutated
so far with the error logged; no per-event error escapes to the stream
driver. -/
theorem on_new_bar_catches_all (now : Int) (o : BarOracles) (s : LoggerState)
    (resp : BarPayload) :
    (∃ r, onBarTry now o s resp = .ok r ∧ on_new_bar now o s resp = r) ∨
    ∃ e, onBarTry now o s resp = .error e ∧
      on_new_bar now o s resp = (e.1, { e.2 with errorLogged := true }) := by
  cases h : onBarTry now o s resp with
  | ok r => exact .inl ⟨r, rfl, by simp [on_new_bar, h]⟩
  | error e =>
      obtain ⟨s', out⟩ := e
      exact .inr ⟨(s', out), rfl, by simp [on_new_bar, h]⟩

/-- Claim C5: if the clock shows less than 23 hours since the last refresh,
`_refresh_stock_data` returns at once without calling the reference
service and without touching the state; and after a successful refresh
(which stamps `last_update` with the current clock), any call less than
23 hours later again does not call the service — so the service is never
called twice within 23 hours of a successful refresh. -/
theorem refresh_throttle (now : Int) (svc : Except String Nat) (s : LoggerState) :
    (now - s.last_update < 23 * 60 → refresh_stock_data now svc s = (s, false)) ∧
    ∀ sz s₁, refresh_stock_data now (.ok sz) s = (s₁, true) →
      ∀ now₂ svc₂, now₂ - now < 23 * 60 →
        refresh_stock_data now₂ svc₂ s₁ = (s₁, false) := by
  constructor
  · intro h
    unfold refresh_stock_data
    rw [if_pos h]
  · intro sz s₁ h1 now₂ svc₂ h2
    unfold refresh_stock_data at h1
    split at h1
    · exact absurd (congrArg Prod.snd h1) (by simp)
    · have hs₁ : s₁ = { s with issued_shares := some sz, last_update := now } :=
        (congrArg Prod.fst h1).symm
      have hlu : s₁.last_update = now := by rw [hs₁]
      unfold refresh_stock_data
      rw [if_pos (by omega)]

/-- A constructed logger state as it stands right after startup for a
resolved ticker (figi and issued share count set, histories empty). -/
def sampleState : LoggerState :=
  { symbol := "SBER", figi := some ("FIGI1"), issued_shares := some 1000000,
    last_price := 250, last_update := 0, times := [], prices := [] }

theorem refresh_throttle_witness :
    refresh_stock_data 100 (Except.ok 5) sampleState = (sampleState, false) :=
  (refresh_throttle 100 (Except.ok 5) sampleState).1 (by decide)

/-- Collaborators for a healthy event: the reference refresh raises (and is
retained non-fatally), the guid resolves, the candle fetch succeeds with no
candles, and the rendering completes. -/
def okOracles : BarOracles :=
  { refreshSvc := .error ("down"), subs := fun _ => some ("MOEX"),
    fetch := fun _ _ _ => .ok [], renderOk := true }

/-- Collaborators whose candle fetch always raises. -/
def failFetchOracles : BarOracles :=
  { refreshSvc := .error ("down"), subs := fun _ => some ("MOEX"),
    fetch := fun _ _ _ => .error ("boom"), renderOk := true }

/-- A well-formed bar payload: guid, bar time and numeric close price. -/
def samplePayload : BarPayload :=
  { guid := some ("g1"), time := some 60, close := some 250 }

/-- The state and output produced by the body of `on_new_bar` for a
well-formed payload, as established by `onBarTry_wf`: refresh bookkeeping,
both history appends, the capitalization guard and the volume total. -/
def barSuccess (now : Int) (o : BarOracles) (s : LoggerState) (exch : String)
    (t : Int) (c : ℚ) : LoggerState × Output :=
  let s1 := (refresh_stock_data now o.refreshSvc s).1
  let dt := t + 180
  let s3 := { s1 with times := s1.times ++ [dt], prices := s1.prices ++ [c] }
  let cap : Option ℚ :=
    match s3.issued_shares with
    | some n => if n = 0 then none else some ((n : ℚ) * c)
    | none => none
  (s3, { logged := some (exch, dt, c), marketCap := cap,
         reportedVolume :=
           some (totalVolume (get_daily_volume s3.figi o.fetch dt).1),
         errorLogged := false })

theorem onBarTry_wf (now : Int) (o : BarOracles) (s : LoggerState)
    (resp : BarPayload) (g exch : String) (t : Int) (c : ℚ)
    (hg : resp.guid = some g) (hs : o.subs g = some exch)
    (ht : resp.time = some t) (hc : resp.close = some c) :
    onBarTry now o s resp =
      if o.renderOk then .ok (barSuccess now o s exch t c)
      else .error (barSuccess now o s exch t c) := by
  unfold onBarTry barSuccess
  simp only [hg, hs, ht, hc]
  rfl

theorem on_new_bar_wf (now : Int) (o : BarOracles) (s : LoggerState)
    (resp : BarPayload) (g exch : String) (t : Int) (c : ℚ)
    (hg : resp.guid = some g) (hs : o.subs g = some exch)
    (ht : resp.time = some t) (hc : resp.close = some c) :
    on_new_bar now o s resp =
      if o.renderOk then barSuccess now o s exch t c
      else ((barSuccess now o s exch t c).1,
        { (barSuccess now o s exch t c).2 with errorLogged := true }) := by
  rw [on_new_bar, onBarTry_wf now o s resp g exch t c hg hs ht hc]
  cases o.renderOk <;> simp

/-- Claim C4: when the candle fetch raises, `_get_daily_volume` returns the
empty map with the error logged, and `on_new_bar` reports a daily volume
of 0 and completes without the failure reaching its own handler (the body
still returns `.ok`), so nothing propagates to the caller. -/
theorem fetch_failure_zero_volume (now : Int) (o : BarOracles) (s : LoggerState)
    (resp : BarPayload) (g ex f : String) (t : Int) (c : ℚ) (msg : String)
    (hg : resp.guid = some g) (hs : o.subs g = some ex)
    (ht : resp.time = some t) (hc : resp.close = some c)
    (hfigi : s.figi = some f)
    (hf : ∀ fg a b, o.fetch fg a b = .error msg)
    (hr : o.renderOk = true) :
    get_daily_volume s.figi o.fetch (t + 180) = ([], true) ∧
    (∃ r, onBarTry now o s resp = .ok r) ∧
    (on_new_bar now o s resp).2.reportedVolume = some 0 := by
  have hfigi1 : (refresh_stock_data now o.refreshSvc s).1.figi = s.figi :=
    (refresh_preserves now o.refreshSvc s).1
  have hvol : ∀ dt, get_daily_volume s.figi o.fetch dt = ([], true) := by
    intro dt
    simp [get_daily_volume, hfigi, hf]
  refine ⟨hvol (t + 180), ?_, ?_⟩
  · rw [onBarTry_wf now o s resp g ex t c hg hs ht hc, hr]
    exact ⟨_, rfl⟩
  · rw [on_new_bar_wf now o s resp g ex t c hg hs ht hc, hr]
    simp [barSuccess, hfigi1, hvol, totalVolume]

theorem fetch_failure_zero_volume_witness :
    (on_new_bar 100 failFetchOracles sampleState samplePayload).2.reportedVolume =
      some 0 :=
  (fetch_failure_zero_volume 100 failFetchOracles sampleState samplePayload
    ("g1") ("MOEX") ("FIGI1") 60 250 ("boom") rfl rfl rfl rfl rfl
    (fun _ _ _ => rfl) rfl).2.2

theorem on_new_bar_shape (now : Int) (o : BarOracles) (s : LoggerState)
    (resp : BarPayload) :
    (∃ exch t c, (on_new_bar now o s resp).1 = (barSuccess now o s exch t c).1 ∧
      (on_new_bar now o s resp).2.marketCap = (barSuccess now o s exch t c).2.marketCap) ∨
    ((on_new_bar now o s resp).1 = (refresh_stock_data now o.refreshSvc s).1 ∧
      (on_new_bar now o s resp).2.marketCap = none) := by
  cases hg : resp.guid with
  | none =>
      right
      simp [on_new_bar, onBarTry, hg, emptyOutput]
  | some g =>
  cases hs : o.subs g with
  | none =>
      right
      simp [on_new_bar, onBarTry, hg, hs, emptyOutput]
  | some exch =>
  cases ht : resp.time with
  | none =>
      right
      simp [on_new_bar, onBarTry, hg, hs, ht, emptyOutput]
  | some t =>
  cases hc : resp.close with
  | none =>
      right
      simp [on_new_bar, onBarTry, hg, hs, ht, hc, emptyOutput]
  | some c =>
      left
      refine ⟨exch, t, c, ?_⟩
      rw [on_new_bar_wf now o s resp g exch t c hg hs ht hc]
      cases hr : o.renderOk <;> simp

theorem barSuccess_fst (now : Int) (o : BarOracles) (s : LoggerState)
    (exch : String) (t : Int) (c : ℚ) :
    (barSuccess now o s exch t c).1.times =
      (refresh_stock_data now o.refreshSvc s).1.times ++ [t + 180] ∧
    (barSuccess now o s exch t c).1.prices =
      (refresh_stock_data now o.refreshSvc s).1.prices ++ [c] := by
  exact ⟨rfl, rfl⟩

/-- Claim C10: one call to `on_new_bar` either appends exactly one element
to each of the two parallel history lists (when the event survives past the
payload accesses) or appends to neither (when it raises earlier) — it never
appends to one list only, so equal lengths are preserved and the
(timestamp, price) pairing of the series is never broken. -/
theorem times_prices_paired (now : Int) (o : BarOracles) (s : LoggerState)
    (resp : BarPayload) (h : s.times.length = s.prices.length) :
    (on_new_bar now o s resp).1.times.length =
      (on_new_bar now o s resp).1.prices.length ∧
    (((on_new_bar now o s resp).1.times = s.times ∧
        (on_new_bar now o s resp).1.prices = s.prices) ∨
      ∃ dt c, (on_new_bar now o s resp).1.times = s.times ++ [dt] ∧
        (on_new_bar now o s resp).1.prices = s.prices ++ [c]) := by
  obtain ⟨hfig, htimes, hprices⟩ := refresh_preserves now o.refreshSvc s
  rcases on_new_bar_shape now o s resp with ⟨exch, t, c, h1, _⟩ | ⟨h1, _⟩
  · obtain ⟨ht', hp'⟩ := barSuccess_fst now o s exch t c
    rw [h1, ht', hp', htimes, hprices]
    constructor
    · simp [h]
    · exact .inr ⟨t + 180, c, rfl, rfl⟩
  · rw [h1, htimes, hprices]
    exact ⟨h, .inl ⟨rfl, rfl⟩⟩

theorem times_prices_paired_witness :
    (on_new_bar 100 okOracles sampleState samplePayload).1.times.length =
      (on_new_bar 100 okOracles sampleState samplePayload).1.prices.length :=
  (times_prices_paired 100 okOracles sampleState samplePayload rfl).1

/-- Claim C6: delivering any sequence of well-formed bar events with
strictly increasing timestamps grows both history lists by exactly one
element per event — no event is silently dropped — whatever the refresh,
candle-fetch and rendering collaborators do. -/
theorem price_series_grows (s : LoggerState) (events : List BarEventInput)
    (hwf : ∀ e ∈ events, WellFormedEvent e)
    (hinc : StrictlyIncreasing events) :
    (processAll s events).times.length = s.times.length + events.length ∧
    (processAll s events).prices.length = s.prices.length + events.length := by
  induction events generalizing s with
  | nil => simp [processAll]
  | cons e es ih =>
      obtain ⟨⟨g, exch, hg, hs⟩, ⟨t, ht⟩, ⟨c, hc⟩⟩ := hwf e (List.mem_cons_self e es)
      have hstep := on_new_bar_wf e.now e.oracles s e.payload g exch t c hg hs ht hc
      obtain ⟨hfig, htimes, hprices⟩ :=
        refresh_preserves e.now e.oracles.refreshSvc s
      have hlen : (on_new_bar e.now e.oracles s e.payload).1.times.length =
            s.times.length + 1 ∧
          (on_new_bar e.now e.oracles s e.payload).1.prices.length =
            s.prices.length + 1 := by
        rw [hstep]
        obtain ⟨ht', hp'⟩ := barSuccess_fst e.now e.oracles s exch t c
        cases hr : e.oracles.renderOk <;>
          simp [ht', hp', htimes, hprices]
      have htail := ih (on_new_bar e.now e.oracles s e.payload).1
        (fun x hx => hwf x (List.mem_cons_of_mem e hx))
        (List.Chain'.tail hinc)
      have hfold : processAll s (e :: es) =
          processAll (on_new_bar e.now e.oracles s e.payload).1 es := rfl
      refine ⟨?_, ?_⟩
      · rw [hfold, htail.1, hlen.1]
        simp only [List.length_cons]
        omega
      · rw [hfold, htail.2, hlen.2]
        simp only [List.length_cons]
        omega

/-- A second well-formed payload, later than `samplePayload` and carrying
the claims' example price 250.5. -/
def capPayload : BarPayload :=
  { guid := some ("g1"), time := some 120, close := some (501 / 2) }

def sampleEvents : List BarEventInput :=
  [{ now := 100, oracles := okOracles, payload := samplePayload },
   { now := 101, oracles := failFetchOracles, payload := capPayload }]

theorem price_series_grows_witness :
    (processAll sampleState sampleEvents).times.length =
      sampleState.times.length + sampleEvents.length :=
  (price_series_grows sampleState sampleEvents
    (by
      intro e he
      simp [sampleEvents] at he
      rcases he with rfl | rfl
      · exact ⟨⟨"g1", "MOEX", rfl, rfl⟩, ⟨60, rfl⟩, ⟨250, rfl⟩⟩
      · exact ⟨⟨"g1", "MOEX", rfl, rfl⟩, ⟨120, rfl⟩, ⟨501 / 2, rfl⟩⟩)
    (by
      refine List.chain'_cons.mpr ⟨?_, List.chain'_singleton _⟩
      intro ta tb hta htb
      simp [sampleEvents, samplePayload, capPayload] at hta htb
      omega)).1

/-- The startup state with a known issued share count of zero. -/
def zeroShareState : LoggerState := { sampleState with issued_shares := some 0 }

/-- The startup state with the issued share count unset. -/
def unsetState : LoggerState := { sampleState with issued_shares := none }

/-- Claim C7 as stated is false: with issuedShares known and equal to 0,
the truthiness guard `if self.issued_shares:` skips the capitalization
output instead of emitting shares × price = 0 — here the issued share
count is `some 0` at capitalization time, yet no capitalization is
emitted. -/
theorem cap_zero_shares_cex :
    (refresh_stock_data 100 okOracles.refreshSvc zeroShareState).1.issued_shares =
      some 0 ∧
    (on_new_bar 100 okOracles zeroShareState samplePayload).2.marketCap = none := by
  constructor
  · rfl
  · rfl

/-- Claim C7 (amended): whenever the issued share count held at
capitalization time is known and non-zero (the code's truthiness guard
also skips a known count of 0), the emitted capitalization equals
issuedShares × close price; in particular 1,000,000 shares at price 250.5
yield 250,500,000. -/
theorem cap_formula (now : Int) (o : BarOracles) (s : LoggerState)
    (resp : BarPayload) (g exch : String) (t : Int) (c : ℚ) (n : Nat)
    (hg : resp.guid = some g) (hs : o.subs g = some exch)
    (ht : resp.time = some t) (hc : resp.close = some c)
    (hn : (refresh_stock_data now o.refreshSvc s).1.issued_shares = some n)
    (hnz : n ≠ 0) :
    (on_new_bar now o s resp).2.marketCap = some ((n : ℚ) * c) := by
  rw [on_new_bar_wf now o s resp g exch t c hg hs ht hc]
  cases hr : o.renderOk <;> simp [barSuccess, hn, hnz]

theorem cap_formula_witness :
    (on_new_bar 100 okOracles sampleState capPayload).2.marketCap =
      some 250500000 := by
  have h := cap_formula 100 okOracles sampleState capPayload ("g1") ("MOEX")
    120 (501 / 2) 1000000 rfl rfl rfl rfl (by decide) (by decide)
  rw [h]
  norm_num

/-- Claim C8: while the issued share count is unset (`None`) at
capitalization time, `on_new_bar` omits the capitalization output
entirely rather than emitting zero — on every path, including the
malformed-payload ones. -/
theorem cap_omitted_when_unset (now : Int) (o : BarOracles) (s : LoggerState)
    (resp : BarPayload)
    (hn : (refresh_stock_data now o.refreshSvc s).1.issued_shares = none) :
    (on_new_bar now o s resp).2.marketCap = none := by
  rcases on_new_bar_shape now o s resp with ⟨exch, t, c, _, h2⟩ | ⟨_, h2⟩
  · rw [h2]
    simp [barSuccess, hn]
  · exact h2

theorem cap_omitted_when_unset_witness :
    (on_new_bar 100 okOracles unsetState samplePayload).2.marketCap = none :=
  cap_omitted_when_unset 100 okOracles unsetState samplePayload (by decide)

/-- Claim C9: when the reference service cannot resolve the ticker, the
constructor fails with the `ValueError` instead of completing and `main`
turns that startup failure into process exit code 1; and whenever
construction does succeed, the identifier and the issued share count are
both set. -/
theorem startup_aborts_unresolved (rawSymbol : String) (shares : List Share)
    (lastPrice : Except String ℚ) (now : Int) :
    (shares.find? (fun sh => sh.ticker == rawSymbol.toUpper) = none →
      mkLogger rawSymbol shares lastPrice now = .error rawSymbol.toUpper ∧
      mainStartup rawSymbol shares lastPrice now = .inl 1) ∧
    ∀ s, mkLogger rawSymbol shares lastPrice now = .ok s →
      s.figi.isSome ∧ s.issued_shares.isSome := by
  constructor
  · intro hnone
    have h1 : mkLogger rawSymbol shares lastPrice now = .error rawSymbol.toUpper := by
      simp [mkLogger, init_stock_data, hnone]
    exact ⟨h1, by simp [mainStartup, h1]⟩
  · intro s hs
    simp only [mkLogger, init_stock_data] at hs
    cases hfind : shares.find? (fun sh => sh.ticker == rawSymbol.toUpper) with
    | none =>
        rw [hfind] at hs
        exact absurd hs (by simp)
    | some sh =>
        rw [hfind] at hs
        cases lastPrice with
        | error e => exact absurd hs (by simp)
        | ok p =>
            simp only [Except.ok.injEq] at hs
            rw [← hs]
            exact ⟨rfl, rfl⟩

theorem startup_aborts_unresolved_witness :
    mainStartup ("SBER") [] (Except.ok (250 : ℚ)) 0 = .inl 1 :=
  ((startup_aborts_unresolved ("SBER") [] (Except.ok (250 : ℚ)) 0).1 rfl).2

end StockLog
